import Mathlib

/-!
Verification development for the `stacks-rs` BIP32 hierarchical-deterministic
key-derivation core.

The Rust sources are shallowly embedded:

* Rust `u8`/`u32` values are `Nat`s; arithmetic that can overflow in Rust is
  modelled with an explicit bound check, and the debug-profile overflow panic
  (the profile the repository's own `#[should_panic]` tests rely on) is
  modelled as an explicit `panicked` outcome, as is every `unwrap` on an
  error value.
* Rust strings (`&str`) are `List Char`.
* Byte buffers (`[u8; N]`, `Vec<u8>`) are `List Nat`.
* The external secp256k1 primitive is modelled by the discrete logarithm of
  each point: the secp256k1 group is cyclic of prime order `secpOrder`, so a
  point is represented by its scalar `p : Nat` (meaning `p·G`), point
  addition is addition of logarithms `mod secpOrder`, the identity is `0`,
  and scalar-to-point projection is reduction `mod secpOrder`.
* The other external collaborators (HMAC-SHA512, hash160, compressed point
  serialization, the Base58Check codec) are opaque parameters, collected in
  `Primitives` and `B58Codec`; the Base58Check contract (decode inverts
  encode) is a field of `B58Codec` because the spec lists the codec as an
  excluded collaborator with exactly that contract.
-/

namespace StacksRs

/-- Decidable equality for `Except`, used to evaluate results by `decide`. -/
instance {ε α : Type} [DecidableEq ε] [DecidableEq α] : DecidableEq (Except ε α) := fun
  | .ok a, .ok b =>
    if h : a = b then isTrue (by rw [h]) else isFalse (by intro hh; cases hh; exact h rfl)
  | .ok _, .error _ => isFalse (by intro h; cases h)
  | .error _, .ok _ => isFalse (by intro h; cases h)
  | .error e, .error f =>
    if h : e = f then isTrue (by rw [h]) else isFalse (by intro hh; cases hh; exact h rfl)

/-! ### ChildNumber (src/bip32/child_number.rs) -/

/-- Rust `INDEX_THRESHOLD: u32 = 2147483648` (`2^31`). -/
def INDEX_THRESHOLD : Nat := 2147483648

/-- Rust `struct ChildNumber { index: u32, is_hardened: bool }`. -/
structure ChildNumber where
  index : Nat
  is_hardened : Bool
deriving DecidableEq, Repr

/-- Rust `enum ChildNumberError { InvalidIndex, CannotParseindex }`
(the source really spells the second variant `CannotParseindex`). -/
inductive ChildNumberError where
  | invalidIndex
  | cannotParseindex
deriving DecidableEq, Repr

/-- Rust `ChildNumber::is_hardened(index: u32)`: `Ok(false)` below the
threshold, `Ok(true)` for `INDEX_THRESHOLD ..= (INDEX_THRESHOLD-1)*2+1`
(which is `u32::MAX`, computed without u32 overflow), else
`Err(InvalidIndex)` (unreachable for `u32` inputs). -/
def isHardenedCheck (index : Nat) : Except ChildNumberError Bool :=
  if index < INDEX_THRESHOLD then .ok false
  else if index ≤ (INDEX_THRESHOLD - 1) * 2 + 1 then .ok true
  else .error .invalidIndex

/-- Rust `ChildNumber::new(index: u32)`. -/
def childNew (index : Nat) : Except ChildNumberError ChildNumber :=
  (isHardenedCheck index).map fun h => ⟨index, h⟩

/-- Outcome of a fallible Rust function that can also panic. -/
inductive CRes where
  | ok (c : ChildNumber)
  | err (e : ChildNumberError)
  | panicked
deriving DecidableEq, Repr

/-- The apostrophe character `'`, written by code point. -/
def apos : Char := Char.ofNat 39

/-- Rust `s.replace("'", "")`: drop every apostrophe. -/
def stripApos (s : List Char) : List Char := s.filter (· ≠ apos)

/-- Rust `<u32 as FromStr>::from_str`: optional leading `+`, then one or
more decimal digits, rejecting values `≥ 2^32` (overflow). -/
def parseU32 (s : List Char) : Option Nat :=
  let t := match s with
    | c :: rest => if c = '+' then rest else s
    | [] => s
  if t = [] then none
  else if t.all Char.isDigit then
    let v := t.foldl (fun a c => a * 10 + (c.toNat - 48)) 0
    if v < 2 ^ 32 then some v else none
  else none

/-- Rust `<ChildNumber as FromStr>::from_str`.  A segment containing an
apostrophe anywhere has every apostrophe removed, the rest is parsed as a
`u32` and `INDEX_THRESHOLD` is added; in the source this addition is plain
`u32` arithmetic, so a sum `≥ 2^32` is a debug-profile overflow panic
(exercised by the repository's `#[should_panic]` test
`test_derivation_path_invalid_hardened_index`). -/
def childFromStr (s : List Char) : CRes :=
  if s.contains apos then
    match parseU32 (stripApos s) with
    | none => .err .cannotParseindex
    | some m =>
      if m + INDEX_THRESHOLD < 2 ^ 32 then
        match childNew (m + INDEX_THRESHOLD) with
        | .ok c => .ok c
        | .error e => .err e
      else .panicked
  else
    match parseU32 s with
    | none => .err .cannotParseindex
    | some m =>
      match childNew m with
      | .ok c => .ok c
      | .error e => .err e

/-! ### DerivationPath (src/bip32/derivation_path.rs) -/

/-- Rust `MAX_DEPTH: usize = 5`. -/
def MAX_DEPTH : Nat := 5

/-- Rust `derivation_path::Error` (the source's enum carries an unused
`CannotParseindex` variant, kept here for fidelity). -/
inductive PathError where
  | maxDepthExceeded
  | wrongPathPfx
  | invalidPathIndex (e : ChildNumberError)
  | cannotParseindex
deriving DecidableEq, Repr

/-- Outcome of `DerivationPath::from_str`, with an explicit panic case. -/
inductive PRes where
  | ok (p : List ChildNumber)
  | err (e : PathError)
  | panicked
deriving DecidableEq, Repr

/-- Rust `str::strip_prefix`: remove a leading pattern, or `none`. -/
def stripPfx : List Char → List Char → Option (List Char)
  | [], s => some s
  | _ :: _, [] => none
  | p :: ps, c :: cs => if p = c then stripPfx ps cs else none

/-- Rust `str::split("/")`: `n` separators yield `n + 1` pieces, so the
empty string yields one empty piece. -/
def splitSlash : List Char → List (List Char)
  | [] => [[]]
  | c :: rest =>
    if c = '/' then [] :: splitSlash rest
    else
      match splitSlash rest with
      | [] => [[c]]
      | p :: ps => (c :: p) :: ps

/-- Parse each segment left to right, short-circuiting on the first
failure, which is wrapped as `InvalidPathIndex`. -/
def parseSegments : List (List Char) → PRes
  | [] => .ok []
  | part :: rest =>
    match childFromStr part with
    | .ok c =>
      match parseSegments rest with
      | .ok p => .ok (c :: p)
      | .err e => .err e
      | .panicked => .panicked
    | .err e => .err (.invalidPathIndex e)
    | .panicked => .panicked

/-- Rust `<DerivationPath as FromStr>::from_str`.  The source computes
`str_path = s.strip_prefix("m/")`, maps `None` to
`Err(Error::WrongPathPrefix)` — and then immediately calls
`str_path.unwrap()`, so a missing `"m/"` in fact panics instead of
returning the error; that unwrap is the `panicked` branch here. -/
def pathFromStr (s : List Char) : PRes :=
  match stripPfx ['m', '/'] s with
  | none => .panicked
  | some rest =>
    let splitted := splitSlash rest
    if splitted.length > MAX_DEPTH then .err .maxDepthExceeded
    else parseSegments splitted

/-! ### KeyVersion (src/bip32/key_version.rs; the identical private copy in
src/bip32/extended_keys.rs shares the same magic table) -/

/-- Rust `enum Version` with its 8 variants. -/
inductive Version where
  | XPrv | XPub | TPrv | TPub | ZPrv | ZPub | YPrv | YPub
deriving DecidableEq, Repr

/-- Rust `key_version::Error`. -/
inductive VersionError where
  | invalidVersion
  | versionTooShort
deriving DecidableEq, Repr

/-- Rust `Version::to_bytes`: each variant's 4-byte magic, obtained in the
source by `hex::decode` of the literal (`"0488ade4"` for `XPrv`, etc.). -/
def versionToBytes : Version → List Nat
  | .XPrv => [0x04, 0x88, 0xad, 0xe4]
  | .XPub => [0x04, 0x88, 0xb2, 0x1e]
  | .TPrv => [0x04, 0x35, 0x83, 0x94]
  | .TPub => [0x04, 0x35, 0x87, 0xcf]
  | .ZPrv => [0x04, 0xb2, 0x43, 0x0c]
  | .ZPub => [0x04, 0xb2, 0x47, 0x46]
  | .YPrv => [0x04, 0x9d, 0x78, 0x78]
  | .YPub => [0x04, 0x9d, 0x7c, 0xb2]

/-- Rust `Version::to_string`: the 4-character tag. -/
def versionTag : Version → List Char
  | .XPrv => ['x', 'p', 'r', 'v']
  | .XPub => ['x', 'p', 'u', 'b']
  | .TPrv => ['t', 'p', 'r', 'v']
  | .TPub => ['t', 'p', 'u', 'b']
  | .ZPrv => ['z', 'p', 'r', 'v']
  | .ZPub => ['z', 'p', 'u', 'b']
  | .YPrv => ['y', 'p', 'r', 'v']
  | .YPub => ['y', 'p', 'u', 'b']

/-- Lowercase hex digit for a value below 16. -/
def hexDigit (n : Nat) : Char :=
  if n < 10 then Char.ofNat (48 + n) else Char.ofNat (87 + n)

/-- Rust `hex::encode`: two lowercase hex digits per byte. -/
def hexEncode (bs : List Nat) : List Char :=
  bs.flatMap fun b => [hexDigit (b / 16), hexDigit (b % 16)]

/-- Rust `<Version as TryFrom<&[u8]>>::try_from`.  The source compares
`hex::encode(value)` — an 8-character hex string such as `"0488ade4"` —
against the 4-character tags `"xprv"`, `"xpub"`, …, exactly as written
here. -/
def versionTryFrom (value : List Nat) : Except VersionError Version :=
  if value.length ≠ 4 then .error .versionTooShort
  else if hexEncode value = versionTag .XPrv then .ok .XPrv
  else if hexEncode value = versionTag .XPub then .ok .XPub
  else if hexEncode value = versionTag .TPrv then .ok .TPrv
  else if hexEncode value = versionTag .TPub then .ok .TPub
  else if hexEncode value = versionTag .ZPrv then .ok .ZPrv
  else if hexEncode value = versionTag .ZPub then .ok .ZPub
  else if hexEncode value = versionTag .YPrv then .ok .YPrv
  else if hexEncode value = versionTag .YPub then .ok .YPub
  else .error .invalidVersion

/-! ### Byte helpers -/

/-- Big-endian byte rendering of `n` on `len` bytes, as in Rust
`u32::to_be_bytes` (`len = 4`) and `SecretKey::secret_bytes` (`len = 32`). -/
def beBytes (len n : Nat) : List Nat :=
  (List.range len).map fun i => n / 256 ^ (len - 1 - i) % 256

/-- Big-endian value of a byte string, as in Rust `u32::from_be_bytes` and
`Scalar::from_be_bytes`. -/
def beNat (bs : List Nat) : Nat := bs.foldl (fun a b => a * 256 + b) 0

/-! ### External curve and hash primitives

The secp256k1 group is cyclic of prime order `secpOrder`; a point is
represented by its discrete logarithm, so the generator is `1`, the
identity is `0`, point addition is addition of logarithms mod the order,
and `SecretKey::public_key` is reduction mod the order. -/

/-- The order of the secp256k1 group. -/
def secpOrder : Nat :=
  115792089237316195423570985008687907852837564279074904382605163141518161494337

/-- Rust `SecretKey::public_key` in the discrete-logarithm point model. -/
def pubPoint (s : Nat) : Nat := s % secpOrder

/-- The external collaborators the derivation engine consumes, left
abstract: `hmac512 data key` models `compute_hmac::<HmacSha512>(data, key)`
(64 bytes), `hash160` models `Hash160::from_data` (20 bytes), and
`pointSerialize` models `PublicKey::serialize` (33-byte compressed form). -/
structure Primitives where
  hmac512 : List Nat → List Nat → List Nat
  hash160 : List Nat → List Nat
  pointSerialize : Nat → List Nat

/-! ### ExtendedKeyAttrs (src/crypto/keys/common_attrs.rs) -/

/-- Rust `struct ExtendedKeyAttrs`. -/
structure ExtendedKeyAttrs where
  depth : Nat
  parent_fingerprint : List Nat
  child_number : ChildNumber
deriving DecidableEq, Repr

/-- Rust `ExtendedKeyAttrs::default()`: depth 0, all-zero fingerprint,
child number `ChildNumber::new(0).unwrap()`. -/
def attrsDefault : ExtendedKeyAttrs :=
  ⟨0, [0, 0, 0, 0], ⟨0, false⟩⟩

/-! ### ExtendedPrivateKey and ExtendedPublicKey
(src/crypto/keys/extended_private_key.rs, extended_public_key.rs) -/

/-- Rust `struct ExtendedPrivateKey`; the secret scalar is its numeric
value (always reduced below `secpOrder` by construction). -/
structure ExtendedPrivateKey where
  attrs : ExtendedKeyAttrs
  chain_code : List Nat
  s_key : Nat
deriving DecidableEq, Repr

/-- Rust `struct ExtendedPublicKey`; the point is its discrete logarithm. -/
structure ExtendedPublicKey where
  attrs : ExtendedKeyAttrs
  chain_code : List Nat
  p_key : Nat
deriving DecidableEq, Repr

/-- Fingerprint of a point: first 4 bytes of
`hash160(compressed-serialization)`, shared by
`ExtendedPrivateKey::fingerprint` and `ExtendedPublicKey::fingerprint`. -/
def fingerprintPt (prim : Primitives) (p : Nat) : List Nat :=
  (prim.hash160 (prim.pointSerialize p)).take 4

/-- Rust `ExtendedPrivateKey::fingerprint`. -/
def privFingerprint (prim : Primitives) (k : ExtendedPrivateKey) : List Nat :=
  fingerprintPt prim (pubPoint k.s_key)

/-- Rust `ExtendedPrivateKey::to_extended_key_bytes`: a zero byte then the
32 big-endian bytes of the scalar. -/
def toExtendedKeyBytes (k : ExtendedPrivateKey) : List Nat :=
  0 :: beBytes 32 k.s_key

/-- The bytes of Rust `BITCOIN_SEED_STRING` (`"Bitcoin seed"`). -/
def BITCOIN_SEED_STRING : List Nat :=
  [0x42, 0x69, 0x74, 0x63, 0x6f, 0x69, 0x6e, 0x20, 0x73, 0x65, 0x65, 0x64]

/-- Rust `ExtendedPrivateKey::new(seed)`: `I = HMAC-SHA512(data = seed,
key = "Bitcoin seed")`, scalar from `I[0..32]`, chain code `I[32..64]`.
`SecretKey::from_byte_array(..).unwrap()` panics (`none` here) when the
candidate scalar is zero or not below the curve order. -/
def newPriv (prim : Primitives) (seed : List Nat) : Option ExtendedPrivateKey :=
  let result := prim.hmac512 seed BITCOIN_SEED_STRING
  let il := beNat (result.take 32)
  let cc := (result.drop 32).take 32
  if 0 < il ∧ il < secpOrder then
    some ⟨attrsDefault, cc, il⟩
  else none

/-- Rust `ExtendedPrivateKey::derive_child`.  The source's depth guard is
the empty statement `if self.attrs.depth >= 5 { }`, so no depth error is
ever returned; the function's only exits besides success are panics
(`none`): `Scalar::from_be_bytes(..).unwrap()` when the tweak is not below
the curve order, `add_tweak(..).unwrap()` when the tweaked scalar is zero,
and the debug-profile `u8` overflow of `self.attrs.depth + 1` when the
parent depth is 255. -/
def derivePriv (prim : Primitives) (k : ExtendedPrivateKey) (cn : ChildNumber) :
    Option ExtendedPrivateKey :=
  let payload :=
    (if cn.is_hardened then toExtendedKeyBytes k
     else prim.pointSerialize (pubPoint k.s_key)) ++ beBytes 4 cn.index
  let i := prim.hmac512 payload k.chain_code
  let t := beNat (i.take 32)
  let cc := (i.drop 32).take 32
  if t < secpOrder then
    let s2 := (k.s_key + t) % secpOrder
    if s2 = 0 then none
    else if k.attrs.depth + 1 < 256 then
      some ⟨⟨k.attrs.depth + 1, privFingerprint prim k, cn⟩, cc, s2⟩
    else none
  else none

/-- Error outcomes of `ExtendedPublicKey::derive_child`: the returned
`Err(())` on a hardened index — the failure the spec names
`HardenedFromPublicOnly` — and the panics of the `unwrap`ed curve calls. -/
inductive PubDeriveError where
  | hardenedFromPublicOnly
  | panicked
deriving DecidableEq, Repr

/-- Rust `ExtendedPublicKey::derive_child`: an immediate `Err(())` for a
hardened child number (before any HMAC or curve computation); otherwise
the same 37-byte payload, HMAC split and attribute bookkeeping as the
private case, with `add_exp_tweak` point addition.  The unwrap panics
(tweak not below the order, identity result, `u8` depth overflow) are the
`panicked` error. -/
def derivePub (prim : Primitives) (k : ExtendedPublicKey) (cn : ChildNumber) :
    Except PubDeriveError ExtendedPublicKey :=
  if cn.is_hardened then .error .hardenedFromPublicOnly
  else
    let payload := prim.pointSerialize k.p_key ++ beBytes 4 cn.index
    let i := prim.hmac512 payload k.chain_code
    let t := beNat (i.take 32)
    let cc := (i.drop 32).take 32
    if t < secpOrder then
      let p2 := (k.p_key + t) % secpOrder
      if p2 = 0 then .error .panicked
      else if k.attrs.depth + 1 < 256 then
        .ok ⟨⟨k.attrs.depth + 1, fingerprintPt prim k.p_key, cn⟩, cc, p2⟩
      else .error .panicked
    else .error .panicked

/-- Rust `impl From<&ExtendedPrivateKey> for ExtendedPublicKey`: copy the
attributes and chain code, project the scalar to its curve point. -/
def extPubFromPriv (k : ExtendedPrivateKey) : ExtendedPublicKey :=
  ⟨k.attrs, k.chain_code, pubPoint k.s_key⟩

/-- The loop body of `ExtendedPrivateKey::derive_from_path`: walk the path
keeping the running key, the separately counted `u8` depth (whose
`depth += 1` overflows — panics — past 255) and the last child number. -/
def deriveLoop (prim : Primitives) :
    ExtendedPrivateKey → Nat → ChildNumber → List ChildNumber →
    Option (ExtendedPrivateKey × Nat × ChildNumber)
  | k, d, last, [] => some (k, d, last)
  | k, d, _last, cn :: rest =>
    match derivePriv prim k cn with
    | none => none
    | some k2 => if d + 1 < 256 then deriveLoop prim k2 (d + 1) cn rest else none

/-- Rust `ExtendedPrivateKey::derive_from_path`: start from
`new(seed).unwrap()` (panic on failure), loop `derive_child` over the
path, then rebuild the attributes as
`ExtendedKeyAttrs::new(depth, key.fingerprint(), path)` — note the source
uses the *final key's own* fingerprint for the `parent_fingerprint`
field. -/
def deriveFromPath (prim : Primitives) (seed : List Nat) (path : List ChildNumber) :
    Option ExtendedPrivateKey :=
  match newPriv prim seed with
  | none => none
  | some k0 =>
    match deriveLoop prim k0 0 ⟨0, false⟩ path with
    | none => none
    | some (key, depth, last) =>
      some ⟨⟨depth, privFingerprint prim key, last⟩, key.chain_code, key.s_key⟩

/-- The claim's reference computation for `derive_from_path`: the plain
left fold of `derive_child` over the path, starting from the master key. -/
def foldDerive (prim : Primitives) :
    ExtendedPrivateKey → List ChildNumber → Option ExtendedPrivateKey
  | k, [] => some k
  | k, cn :: rest =>
    match derivePriv prim k cn with
    | none => none
    | some k2 => foldDerive prim k2 rest

/-! ### ExtendedKey wire form (src/bip32/extended_keys.rs) -/

/-- Rust `struct ExtendedKey` of src/bip32/extended_keys.rs. -/
structure ExtendedKey where
  version : Version
  depth : Nat
  parent_fingerprint : List Nat
  child_number : ChildNumber
  chain_code : List Nat
  key_bytes : List Nat
deriving DecidableEq, Repr

/-- The shape the Rust types enforce statically: `parent_fingerprint` is a
`[u8; 4]`, `chain_code` a `[u8; 32]`, `key_bytes` a `[u8; 33]`. -/
def EKWf (k : ExtendedKey) : Prop :=
  k.parent_fingerprint.length = 4 ∧ k.chain_code.length = 32 ∧ k.key_bytes.length = 33

instance (k : ExtendedKey) : Decidable (EKWf k) := by unfold EKWf; infer_instance

/-- Rust `slice::copy_from_slice` into `dst[off .. off + src.len()]`. -/
def writeSlice (dst : List Nat) (off : Nat) (src : List Nat) : List Nat :=
  dst.take off ++ src ++ dst.drop (off + src.length)

/-- The 78-byte buffer `ExtendedKey::b58_encode` builds before encoding:
a zeroed `[u8; 78]` written field by field exactly as in the source
(`bytes[..4]`, `bytes[4]`, `bytes[5..9]`, `bytes[9..13]`, `bytes[13..45]`,
`bytes[45..78]`). -/
def serialize78 (k : ExtendedKey) : List Nat :=
  let b0 := List.replicate 78 0
  let b1 := writeSlice b0 0 (versionToBytes k.version)
  let b2 := b1.set 4 k.depth
  let b3 := writeSlice b2 5 k.parent_fingerprint
  let b4 := writeSlice b3 9 (beBytes 4 k.child_number.index)
  let b5 := writeSlice b4 13 k.chain_code
  writeSlice b5 45 k.key_bytes

/-- The external Base58Check codec over an abstract text type `τ`, with
the contract the spec assigns to the excluded collaborator: decoding (with
checksum verification) inverts encoding. -/
structure B58Codec (τ : Type) where
  encode : List Nat → τ
  decode : τ → Option (List Nat)
  decode_encode : ∀ bs, decode (encode bs) = some bs

/-- A trivial codec instance (text modelled as the raw byte list), used to
evaluate the development at concrete inputs. -/
def idCodec : B58Codec (List Nat) :=
  ⟨fun bs => bs, fun bs => some bs, fun _ => rfl⟩

/-- Rust `ExtendedKey::b58_encode`: Base58Check-encode the 78-byte
buffer. -/
def b58Encode {τ : Type} (c : B58Codec τ) (k : ExtendedKey) : τ :=
  c.encode (serialize78 k)

/-- Decode failures of `ExtendedKey::from_str`. -/
inductive FromStrError where
  | decodeFailed
  | wrongLength
  | versionErr (e : VersionError)
  | childErr (e : ChildNumberError)
deriving DecidableEq, Repr

/-- Modelled from the spec: `ExtendedKey::from_str` is absent from the
sources (`b58_decode` is commented out in src/bip32/extended_keys.rs and
no `FromStr` impl exists), so this follows §4.6 of the spec:
Base58Check-decode (failing on an invalid checksum or alphabet), slice the
resulting bytes into the same fields in the same order, reconstruct the
`KeyVersion` via `from_magic` — the source's `Version::try_from` — and the
`ChildNumber` via `new` of the big-endian `u32`. -/
def ekFromStr {τ : Type} (c : B58Codec τ) (text : τ) : Except FromStrError ExtendedKey :=
  match c.decode text with
  | none => .error .decodeFailed
  | some raw =>
    if raw.length < 78 then .error .wrongLength
    else
      match versionTryFrom (raw.take 4) with
      | .error e => .error (.versionErr e)
      | .ok v =>
        match childNew (beNat ((raw.drop 9).take 4)) with
        | .error e => .error (.childErr e)
        | .ok cn =>
          .ok ⟨v, (raw.drop 4).headD 0, (raw.drop 5).take 4, cn,
               (raw.drop 13).take 32, (raw.drop 45).take 33⟩

/-! ### Concrete primitive instance used for evaluation witnesses -/

/-- A concrete, cheaply evaluable instance of the abstract primitives:
the HMAC is constant with a nonzero leading byte (so derived scalars stay
valid), the hash is a padded truncation, and a point serializes to a
33-byte compressed-style string. -/
def toyPrims : Primitives where
  hmac512 := fun _ _ => 1 :: List.replicate 63 0
  hash160 := fun bs => (bs ++ List.replicate 20 0).take 20
  pointSerialize := fun p => 2 :: beBytes 32 p

/-! ### Layout lemmas -/

theorem beBytes_length (len n : Nat) : (beBytes len n).length = len := by
  simp [beBytes]

theorem versionToBytes_length (v : Version) : (versionToBytes v).length = 4 := by
  cases v <;> rfl

theorem versionTryFrom_magic (v : Version) :
    versionTryFrom (versionToBytes v) = .error .invalidVersion := by
  cases v <;> decide

/-- A `copy_from_slice` landing exactly after an already-written prefix. -/
theorem writeSlice_at {off : Nat} (dst pre suf src : List Nat)
    (hdst : dst = pre ++ suf) (hoff : pre.length = off) :
    writeSlice dst off src = pre ++ src ++ suf.drop src.length := by
  subst hdst; subst hoff
  unfold writeSlice
  rw [List.take_left, List.drop_append]

/-- The buffer `b58_encode` builds is the concatenation of the six fields
in wire order. -/
theorem serialize78_eq (k : ExtendedKey) (h : EKWf k) :
    serialize78 k =
      versionToBytes k.version ++ [k.depth] ++ k.parent_fingerprint ++
        beBytes 4 k.child_number.index ++ k.chain_code ++ k.key_bytes := by
  obtain ⟨hfp, hcc, hkb⟩ := h
  have hver := versionToBytes_length k.version
  have e1 : writeSlice (List.replicate 78 0) 0 (versionToBytes k.version) =
      versionToBytes k.version ++ List.replicate 74 0 := by
    rw [writeSlice_at _ [] (List.replicate 78 0) _ (List.nil_append _).symm List.length_nil,
      hver, List.drop_replicate, List.nil_append]
  have e2 : (versionToBytes k.version ++ List.replicate 74 0).set 4 k.depth =
      versionToBytes k.version ++ [k.depth] ++ List.replicate 73 0 := by
    rw [show (4 : Nat) = (versionToBytes k.version).length from hver.symm,
      List.set_append_right _ _ (Nat.le_refl _), Nat.sub_self]
    simp [show (74 : Nat) = 73 + 1 from rfl, List.replicate_succ]
  have e3 : writeSlice (versionToBytes k.version ++ [k.depth] ++ List.replicate 73 0)
      5 k.parent_fingerprint =
      versionToBytes k.version ++ [k.depth] ++ k.parent_fingerprint ++ List.replicate 69 0 := by
    rw [writeSlice_at _ (versionToBytes k.version ++ [k.depth]) (List.replicate 73 0) _
      rfl (by simp [hver]), hfp, List.drop_replicate]
  have e4 : writeSlice
      (versionToBytes k.version ++ [k.depth] ++ k.parent_fingerprint ++ List.replicate 69 0)
      9 (beBytes 4 k.child_number.index) =
      versionToBytes k.version ++ [k.depth] ++ k.parent_fingerprint ++
        beBytes 4 k.child_number.index ++ List.replicate 65 0 := by
    rw [writeSlice_at _ (versionToBytes k.version ++ [k.depth] ++ k.parent_fingerprint)
      (List.replicate 69 0) _ (by simp) (by simp [hver, hfp]), beBytes_length,
      List.drop_replicate]
  have e5 : writeSlice
      (versionToBytes k.version ++ [k.depth] ++ k.parent_fingerprint ++
        beBytes 4 k.child_number.index ++ List.replicate 65 0) 13 k.chain_code =
      versionToBytes k.version ++ [k.depth] ++ k.parent_fingerprint ++
        beBytes 4 k.child_number.index ++ k.chain_code ++ List.replicate 33 0 := by
    rw [writeSlice_at _ (versionToBytes k.version ++ [k.depth] ++ k.parent_fingerprint ++
      beBytes 4 k.child_number.index) (List.replicate 65 0) _ (by simp)
      (by simp [hver, hfp, beBytes_length]), hcc, List.drop_replicate]
  have e6 : writeSlice
      (versionToBytes k.version ++ [k.depth] ++ k.parent_fingerprint ++
        beBytes 4 k.child_number.index ++ k.chain_code ++ List.replicate 33 0)
      45 k.key_bytes =
      versionToBytes k.version ++ [k.depth] ++ k.parent_fingerprint ++
        beBytes 4 k.child_number.index ++ k.chain_code ++ k.key_bytes := by
    rw [writeSlice_at _ (versionToBytes k.version ++ [k.depth] ++ k.parent_fingerprint ++
      beBytes 4 k.child_number.index ++ k.chain_code) (List.replicate 33 0) _ (by simp)
      (by simp [hver, hfp, beBytes_length, hcc]), hkb, List.drop_replicate,
      Nat.sub_self, List.replicate_zero, List.append_nil]
  simp only [serialize78]
  rw [e1, e2, e3, e4, e5, e6]

theorem serialize78_length (k : ExtendedKey) (h : EKWf k) :
    (serialize78 k).length = 78 := by
  obtain ⟨hfp, hcc, hkb⟩ := h
  rw [serialize78_eq k ⟨hfp, hcc, hkb⟩]
  simp [versionToBytes_length, beBytes_length, hfp, hcc, hkb]

/-! ### Sample values used by evaluation witnesses -/

/-- A well-formed sample wire key: version `xprv`, everything else zero. -/
def ekSample : ExtendedKey :=
  ⟨.XPrv, 0, List.replicate 4 0, ⟨0, false⟩, List.replicate 32 0, List.replicate 33 0⟩

/-- A sample parent private key (master-shaped, scalar 1). -/
def privSample : ExtendedPrivateKey :=
  ⟨attrsDefault, List.replicate 32 0, 1⟩

/-- A sample parent private key whose depth is at the `u8` maximum 255. -/
def privSample255 : ExtendedPrivateKey :=
  ⟨⟨255, [0, 0, 0, 0], ⟨0, false⟩⟩, List.replicate 32 0, 1⟩

/-- The segment `"2147483648'"`: the apostrophe-stripped magnitude is
`2^31`, so the source's `index + INDEX_THRESHOLD` overflows `u32`. -/
def segOverflow : List Char :=
  ['2', '1', '4', '7', '4', '8', '3', '6', '4', '8'] ++ [apos]

/-! ### Claim theorems -/

/-- C1: for every parent extended private key and every non-hardened child
number, deriving the child publicly from the projected public key agrees
with deriving it privately and then projecting: the two computations
return, for every choice of the external primitives, the same curve
point, the same chain code (and the same attributes), and they fail
together. -/
theorem C1_public_derivation_consistency (prim : Primitives)
    (parent : ExtendedPrivateKey) (cn : ChildNumber) (h : cn.is_hardened = false) :
    derivePub prim (extPubFromPriv parent) cn =
      match derivePriv prim parent cn with
      | some k => .ok (extPubFromPriv k)
      | none => .error .panicked := by
  have hmod : ∀ t : Nat,
      (pubPoint parent.s_key + t) % secpOrder = (parent.s_key + t) % secpOrder :=
    fun t => Nat.mod_add_mod _ _ _
  simp only [derivePub, derivePriv, extPubFromPriv, h, Bool.false_eq_true, if_false,
    privFingerprint, hmod]
  split_ifs with h1 h2 h3 <;>
    first
      | rfl
      | simp only [pubPoint, Nat.mod_mod_of_dvd _ dvd_rfl]

/-- Witness for C1 at the sample parent and child number 0. -/
theorem C1_public_derivation_consistency_witness :
    derivePub toyPrims (extPubFromPriv privSample) ⟨0, false⟩ =
      match derivePriv toyPrims privSample ⟨0, false⟩ with
      | some k => .ok (extPubFromPriv k)
      | none => .error .panicked :=
  C1_public_derivation_consistency toyPrims privSample ⟨0, false⟩ rfl

/-- C2: decoding the Base58Check text produced by `b58_encode` never
reconstructs the key: for every well-formed `ExtendedKey` and every codec
satisfying the Base58Check contract, the spec-modelled `from_str` fails
with `InvalidVersion`, because the source's `Version::try_from` compares
`hex::encode` of the magic (an 8-character hex string) against the
4-character tag strings and therefore rejects every magic. -/
theorem C2_from_str_roundtrip_fails (τ : Type) (c : B58Codec τ)
    (k : ExtendedKey) (h : EKWf k) :
    ekFromStr c (b58Encode c k) = .error (.versionErr .invalidVersion) := by
  unfold ekFromStr b58Encode
  rw [c.decode_encode]
  have hl : ¬ (serialize78 k).length < 78 := by
    rw [serialize78_length k h]; omega
  have ht4 : (serialize78 k).take 4 = versionToBytes k.version := by
    rw [serialize78_eq k h,
      show (4 : Nat) = (versionToBytes k.version).length from
        (versionToBytes_length k.version).symm]
    simp only [List.append_assoc]
    exact List.take_left _ _
  simp only [hl, if_false, ht4, versionTryFrom_magic]

/-- Witness for C2 at the sample key with the identity codec. -/
theorem C2_from_str_roundtrip_fails_witness :
    ekFromStr idCodec (b58Encode idCodec ekSample) =
      .error (.versionErr .invalidVersion) :=
  C2_from_str_roundtrip_fails _ idCodec ekSample (by decide)

/-- C3: `b58_encode` lays out exactly 78 bytes — the 4-byte version magic,
1-byte depth, 4-byte parent fingerprint, 4-byte big-endian child index,
32-byte chain code and 33-byte key material, in that order — and applies
the Base58Check encoder to exactly those 78 bytes. -/
theorem C3_b58_encode_layout (τ : Type) (c : B58Codec τ) (k : ExtendedKey)
    (h : EKWf k) :
    serialize78 k =
      versionToBytes k.version ++ [k.depth] ++ k.parent_fingerprint ++
        beBytes 4 k.child_number.index ++ k.chain_code ++ k.key_bytes ∧
    (serialize78 k).length = 78 ∧
    b58Encode c k = c.encode (serialize78 k) :=
  ⟨serialize78_eq k h, serialize78_length k h, rfl⟩

/-- Witness for C3 at the sample key with the identity codec. -/
theorem C3_b58_encode_layout_witness :
    serialize78 ekSample =
      versionToBytes ekSample.version ++ [ekSample.depth] ++ ekSample.parent_fingerprint ++
        beBytes 4 ekSample.child_number.index ++ ekSample.chain_code ++ ekSample.key_bytes ∧
    (serialize78 ekSample).length = 78 ∧
    b58Encode idCodec ekSample = idCodec.encode (serialize78 ekSample) :=
  C3_b58_encode_layout _ idCodec ekSample (by decide)

/-- C4: the claimed round trip `from_magic(v.magic()) == v` fails for
every one of the 8 version variants: `Version::try_from` returns
`InvalidVersion` on each variant's own magic, because it compares
`hex::encode` of the 4 magic bytes against the textual tags. -/
theorem C4_version_roundtrip_always_fails (v : Version) :
    versionTryFrom (versionToBytes v) = .error .invalidVersion := by
  cases v <;> decide

/-- C5: for every public parent key and every hardened child number,
`ExtendedPublicKey::derive_child` fails immediately with the returned
error (`Err(())` in the source, named `HardenedFromPublicOnly` by the
spec); the result holds for every choice of the external primitives, so
no derivation computation influences it. -/
theorem C5_hardened_from_public_fails (prim : Primitives)
    (parent : ExtendedPublicKey) (cn : ChildNumber) (h : cn.is_hardened = true) :
    derivePub prim parent cn = .error .hardenedFromPublicOnly := by
  simp only [derivePub, h, if_true]

/-- Witness for C5 at the sample parent and hardened index `2^31`. -/
theorem C5_hardened_from_public_fails_witness :
    derivePub toyPrims (extPubFromPriv privSample) ⟨2147483648, true⟩ =
      .error .hardenedFromPublicOnly :=
  C5_hardened_from_public_fails toyPrims (extPubFromPriv privSample) ⟨2147483648, true⟩ rfl

/-- C6: `derive_from_path` does not return the fold of `derive_child`:
deriving `m/0` from seed `[0x00]` (with the concrete evaluation
primitives), the fold's final key carries the master's fingerprint
`[2,1,0,0]` as `parent_fingerprint`, but `derive_from_path` rebuilds the
attributes with the final key's own fingerprint `[2,2,0,0]`, so the two
results differ. -/
theorem C6_derive_from_path_diverges_from_fold :
    (deriveFromPath toyPrims [0] [⟨0, false⟩]).map (·.attrs.parent_fingerprint) =
      some [2, 2, 0, 0] ∧
    ((newPriv toyPrims [0]).bind
      (fun k => foldDerive toyPrims k [⟨0, false⟩])).map (·.attrs.parent_fingerprint) =
      some [2, 1, 0, 0] ∧
    deriveFromPath toyPrims [0] [⟨0, false⟩] ≠
      (newPriv toyPrims [0]).bind (fun k => foldDerive toyPrims k [⟨0, false⟩]) := by
  refine ⟨by decide, by decide, ?_⟩
  decide

/-- C7: for every input that does not start with `"m/"`,
`DerivationPath::from_str` panics (the source unwraps the
`Err(WrongPathPrefix)` it has just built) instead of returning the
`WrongPathPrefix` error. -/
theorem C7_wrong_path_start_panics (s : List Char)
    (h : stripPfx ['m', '/'] s = none) :
    pathFromStr s = .panicked := by
  unfold pathFromStr
  rw [h]

/-- Witness for C7 at the input `"0"`, which lacks the `"m/"` start. -/
theorem C7_wrong_path_start_panics_witness :
    pathFromStr ['0'] = .panicked :=
  C7_wrong_path_start_panics ['0'] (by decide)

/-- C8: `ExtendedPrivateKey::derive_child` never reports `DepthExceeded`:
its result type has no error channel at all, and for every choice of
primitives a parent at depth 255 makes the call panic (`u8` overflow of
`depth + 1`, or an earlier `unwrap`) rather than return a typed error. -/
theorem C8_depth_255_panics (prim : Primitives)
    (parent : ExtendedPrivateKey) (cn : ChildNumber)
    (h : parent.attrs.depth = 255) :
    derivePriv prim parent cn = none := by
  simp only [derivePriv, h]
  split_ifs <;> simp_all

/-- Witness for C8 at the sample depth-255 parent. -/
theorem C8_depth_255_panics_witness :
    derivePriv toyPrims privSample255 ⟨0, false⟩ = none :=
  C8_depth_255_panics toyPrims privSample255 ⟨0, false⟩ rfl

/-- C9 counterexample: parsing the segment `"2147483648'"` does not report
`CannotParseIndex`; the `u32` addition `2147483648 + 2^31` overflows and
the call panics (the behaviour the repository's own
`#[should_panic]` test `test_derivation_path_invalid_hardened_index`
documents). -/
theorem C9_overflow_sum_counterexample :
    childFromStr segOverflow = .panicked ∧
    childFromStr segOverflow ≠ .err .cannotParseindex := by
  refine ⟨by decide, ?_⟩
  decide

/-- C9 amended: parsing `"44'"` yields index `2147483692` with
`is_hardened`; a failed `u32` parse — non-numeric text or numeric
overflow, with or without apostrophes — reports `CannotParseindex`; but
an apostrophe-stripped magnitude `m` with `m + 2^31 ≥ 2^32` overflows the
`u32` addition and panics instead of reporting `CannotParseindex`. -/
theorem C9_parse_errors_amended :
    childFromStr ['4', '4', apos] = .ok ⟨2147483692, true⟩ ∧
    (∀ s : List Char, s.contains apos = false → parseU32 s = none →
      childFromStr s = .err .cannotParseindex) ∧
    (∀ s : List Char, s.contains apos = true → parseU32 (stripApos s) = none →
      childFromStr s = .err .cannotParseindex) ∧
    (∀ (s : List Char) (m : Nat), s.contains apos = true →
      parseU32 (stripApos s) = some m → ¬ m + INDEX_THRESHOLD < 2 ^ 32 →
      childFromStr s = .panicked) := by
  refine ⟨by decide, ?_, ?_, ?_⟩
  · intro s h1 h2
    simp only [childFromStr, h1, Bool.false_eq_true, if_false, h2]
  · intro s h1 h2
    simp only [childFromStr, h1, if_true, h2]
  · intro s m h1 h2 h3
    simp only [childFromStr, h1, if_true, h2, h3, if_false]

/-- Witness for C9: the overflow case of the amended statement applied at
the segment `"2147483648'"`. -/
theorem C9_parse_errors_amended_witness :
    childFromStr segOverflow = .panicked :=
  C9_parse_errors_amended.2.2.2 segOverflow 2147483648 (by decide) (by decide) (by decide)

/-- C10: a segment is treated as hardened when it contains an apostrophe
at any position — parsing depends only on the apostrophe-stripped
characters — and `"4'4"`, `"'44"` and `"44'"` all parse to the hardened
child number with index `2147483692`. -/
theorem C10_apostrophe_position_irrelevant :
    (∀ s₁ s₂ : List Char, s₁.contains apos = true → s₂.contains apos = true →
      stripApos s₁ = stripApos s₂ → childFromStr s₁ = childFromStr s₂) ∧
    childFromStr ['4', apos, '4'] = .ok ⟨2147483692, true⟩ ∧
    childFromStr [apos, '4', '4'] = .ok ⟨2147483692, true⟩ ∧
    childFromStr ['4', '4', apos] = .ok ⟨2147483692, true⟩ := by
  refine ⟨?_, by decide, by decide, by decide⟩
  intro s₁ s₂ h1 h2 h3
  simp only [childFromStr, h1, h2, if_true, h3]

/-- Witness for C10 at the segments `"4'4"` and `"'44"`. -/
theorem C10_apostrophe_position_irrelevant_witness :
    childFromStr ['4', apos, '4'] = childFromStr [apos, '4', '4'] :=
  C10_apostrophe_position_irrelevant.1 ['4', apos, '4'] [apos, '4', '4']
    (by decide) (by decide) (by decide)

end StacksRs
